import Mathlib

/-!
Verification of the Chitro recorder backend's cache-consistency and
upload-coordination core.

The TypeScript sources are shallowly embedded:
* the `videos` Postgres table becomes a `List VideoRow` with `id` as key;
* the Motia state cache becomes an association list keyed by `(group, key)`;
* `NOW()` and `new Date()` become an explicit `now : Nat` tick;
* fallible external operations (S3 client, Postgres, cache) are driven by an
  `Env` record of failure flags, and a thrown exception is modelled as an
  early return carrying the world state at the failure point (TypeScript
  exceptions do not roll back already-performed mutations).
-/

namespace Chitro

/-- A row of the `videos` table (see `ensureVideoTable` in `db.ts`). -/
structure VideoRow where
  id : String
  filename : String
  contentType : String
  size : Nat
  createdAt : Nat
  s3Key : String
  publicUrl : String
deriving DecidableEq, Repr

/-- The in-memory `VideoMetadata` interface of `s3-service.ts`. -/
structure VideoMetadata where
  id : String
  filename : String
  contentType : String
  size : Nat
  createdAt : Nat
  s3Key : String
  s3Url : String
deriving DecidableEq, Repr

/-- Values stored in the Motia state cache, one constructor per group payload. -/
inductive CacheValue where
  | vid (v : VideoMetadata)
  | listRes (videos : List VideoMetadata) (count : Nat)
  | boolVal (b : Bool)
  | uploadRec (uploadUrl videoId s3Key : String)
deriving DecidableEq, Repr

/-- A cache entry: `(group, key)` mapped to a value. -/
abbrev CacheEntry := (String × String) × CacheValue

/-- The cache is an association list over `(group, key)`. -/
abbrev Cache := List CacheEntry

/-- `state.get(group, key)` of the Motia state layer. -/
def cacheGet (c : Cache) (group key : String) : Option CacheValue :=
  match c.find? (fun e => e.1.1 == group && e.1.2 == key) with
  | some e => some e.2
  | none => none

/-- `state.set(group, key, v)`: unconditional overwrite. -/
def cacheSet (c : Cache) (group key : String) (v : CacheValue) : Cache :=
  ((group, key), v) :: c.filter (fun e => !(e.1.1 == group && e.1.2 == key))

/-- `state.delete(group, key)`: removes a single entry. -/
def cacheDelete (c : Cache) (group key : String) : Cache :=
  c.filter (fun e => !(e.1.1 == group && e.1.2 == key))

/-- `state.clear(group)`: removes every entry of a group. -/
def cacheClear (c : Cache) (group : String) : Cache :=
  c.filter (fun e => !(e.1.1 == group))

/-- `state.getGroup(group)`: all values of a group. -/
def cacheGetGroup (c : Cache) (group : String) : List CacheValue :=
  (c.filter (fun e => e.1.1 == group)).map (fun e => e.2)

/-- `SELECT ... FROM videos WHERE id = $1` (first matching row). -/
def dbFind (db : List VideoRow) (videoId : String) : Option VideoRow :=
  db.find? (fun r => r.id == videoId)

/-- The `DO UPDATE SET public_url = $6` clause applied to one row: only the
conflicting row's `public_url` changes. -/
def updRow (videoId u : String) (r : VideoRow) : VideoRow :=
  if r.id == videoId then { r with publicUrl := u } else r

/-- The upsert of `VideoService.createVideoMetadata`:
`INSERT INTO videos (...) VALUES (..., NOW(), ...) ON CONFLICT (id) DO UPDATE
SET public_url = $6`. On conflict only `public_url` changes; otherwise a new
row with `created_at = NOW()` is inserted. -/
def upsertVideo (db : List VideoRow) (videoId filename contentType : String)
    (size : Nat) (s3Key publicUrl : String) (now : Nat) : List VideoRow :=
  if db.any (fun r => r.id == videoId) then
    db.map (updRow videoId publicUrl)
  else
    db ++ [⟨videoId, filename, contentType, size, now, s3Key, publicUrl⟩]

/-- `S3Service.generatePublicUrl` in the non-presigned branch:
`publicUrlBase ++ "/" ++ s3Key`. -/
def generatePublicUrl (publicUrlBase s3Key : String) : String :=
  publicUrlBase ++ "/" ++ s3Key

/-- Converts a table row to the `VideoMetadata` shape returned by reads. -/
def rowToMetadata (r : VideoRow) : VideoMetadata :=
  ⟨r.id, r.filename, r.contentType, r.size, r.createdAt, r.s3Key, r.publicUrl⟩

/-- `VideoService.createVideoMetadata`: resolves the final public URL, runs the
upsert, and returns the new table plus the in-memory record it builds (whose
`createdAt` is `new Date().toISOString()`, a fresh tick). -/
def createVideoMetadata (db : List VideoRow) (videoId filename contentType : String)
    (size : Nat) (s3Key : String) (publicUrl : Option String)
    (publicUrlBase : String) (now : Nat) : List VideoRow × VideoMetadata :=
  let finalPublicUrl := publicUrl.getD (generatePublicUrl publicUrlBase s3Key)
  (upsertVideo db videoId filename contentType size s3Key finalPublicUrl now,
   ⟨videoId, filename, contentType, size, now, s3Key, finalPublicUrl⟩)

/-- `VideoService.getVideoMetadata`: `SELECT ... WHERE id = $1`, `null` when
no row matches. -/
def getVideoMetadata (db : List VideoRow) (videoId : String) : Option VideoMetadata :=
  match dbFind db videoId with
  | none => none
  | some r => some (rowToMetadata r)

/-- `VideoService.deleteVideo`: `DELETE FROM videos WHERE id = $1 RETURNING id`;
the Bool is `rows.length > 0`. -/
def deleteVideoDb (db : List VideoRow) (videoId : String) : List VideoRow × Bool :=
  (db.filter (fun r => !(r.id == videoId)), db.any (fun r => r.id == videoId))

/-- Insertion step for sorting rows by `created_at` descending. -/
def insertByCreatedAtDesc (r : VideoRow) : List VideoRow → List VideoRow
  | [] => [r]
  | x :: xs =>
    if r.createdAt ≤ x.createdAt then x :: insertByCreatedAtDesc r xs
    else r :: x :: xs

/-- `ORDER BY created_at DESC` as an insertion sort. -/
def sortByCreatedAtDesc : List VideoRow → List VideoRow
  | [] => []
  | x :: xs => insertByCreatedAtDesc x (sortByCreatedAtDesc xs)

/-- `VideoService.listVideos`: newest-first, at most `limit` rows. -/
def listVideosDb (db : List VideoRow) (limit : Nat) : List VideoMetadata :=
  ((sortByCreatedAtDesc db).take limit).map rowToMetadata

/-- Cache operations recorded in order, to state ordering properties. -/
inductive CacheOp where
  | setOp (group key : String)
  | delOp (group key : String)
  | clearOp (group : String)
deriving DecidableEq, Repr

/-- Events emitted through `emit(...)`. -/
inductive Event where
  | videoUploaded (videoId s3Key filename contentType : String) (size : Nat) (publicUrl : String)
  | videoDeleted (videoId s3Key filename : String)
deriving DecidableEq, Repr

/-- The observable world: database table, cache, set of S3 keys present,
emitted events, and the trace of cache mutations performed. -/
structure World where
  db : List VideoRow
  cache : Cache
  s3Keys : List String
  events : List Event
  trace : List CacheOp
deriving DecidableEq, Repr

/-- The environment of one handler run: the UUID `randomUUID()` draws, the
configured public URL base, and a failure flag per external operation (a
`true` flag makes that call throw). -/
structure Env where
  freshId : String
  publicUrlBase : String
  s3UploadFails : Bool
  s3VerifyErrors : Bool
  dbFails : Bool
  cacheGetFails : Bool
  cacheSetFails : Bool
  cacheDeleteFails : Bool
  cacheClearFails : Bool
  cacheGetGroupFails : Bool
  emitFails : Bool
deriving DecidableEq, Repr

/-- `state.set` threaded through the world, recording the mutation. -/
def stateSet (w : World) (group key : String) (v : CacheValue) : World :=
  { w with cache := cacheSet w.cache group key v
           trace := w.trace ++ [CacheOp.setOp group key] }

/-- `state.delete` threaded through the world, recording the mutation. -/
def stateDelete (w : World) (group key : String) : World :=
  { w with cache := cacheDelete w.cache group key
           trace := w.trace ++ [CacheOp.delOp group key] }

/-- `state.clear` threaded through the world, recording the mutation. -/
def stateClear (w : World) (group : String) : World :=
  { w with cache := cacheClear w.cache group
           trace := w.trace ++ [CacheOp.clearOp group] }

/-- The characters after the last dot (the whole input when it has no dot):
what `filename.split('.').pop()` yields. -/
def lastDotSegment (cs : List Char) (cur : List Char) : List Char :=
  match cs with
  | [] => cur
  | c :: rest =>
    if c = '.' then lastDotSegment rest [] else lastDotSegment rest (cur ++ [c])

/-- `filename.split('.').pop() || 'webm'` of `S3Service.uploadVideo`. -/
def extOf (filename : String) : String :=
  let last := String.mk (lastDotSegment filename.toList [])
  if last == "" then "webm" else last

/-- The S3 key `videos/<id>.<ext>` built by `S3Service.uploadVideo`. -/
def s3KeyOf (videoId filename : String) : String :=
  "videos/" ++ videoId ++ "." ++ extOf filename

/-- Response of the `UploadVideo` API handler (200 / 400 / 500). -/
inductive UploadResult where
  | ok (videoId s3Key publicUrl : String)
  | badRequest (error : String)
  | serverError (error : String)
deriving DecidableEq, Repr

/-- The `UploadVideo` handler of `upload-video.step.ts`, starting from the
already-extracted request buffer. The whole body sits in one try/catch whose
catch returns a 500 response, so any thrown step ends the run with
`serverError` and the world as mutated so far. -/
def uploadVideoHandler (env : Env) (buffer : List Nat) (filename contentType : String)
    (now : Nat) (w : World) : UploadResult × World :=
  if buffer.length == 0 then
    (UploadResult.badRequest "Video file is empty", w)
  else if env.s3UploadFails then
    (UploadResult.serverError "s3 upload failed", w)
  else
    let videoId := env.freshId
    let s3Key := s3KeyOf videoId filename
    let publicUrl := generatePublicUrl env.publicUrlBase s3Key
    let w1 := { w with s3Keys := s3Key :: w.s3Keys }
    if env.dbFails then
      (UploadResult.serverError "db failed", w1)
    else
      let db2 := (createVideoMetadata w1.db videoId filename contentType
        buffer.length s3Key (some publicUrl) env.publicUrlBase now).1
      let w2 := { w1 with db := db2 }
      if env.cacheSetFails then
        (UploadResult.serverError "cache set failed", w2)
      else
        let w3 := stateSet w2 "videos" videoId
          (CacheValue.vid ⟨videoId, filename, contentType, buffer.length, now, s3Key, publicUrl⟩)
        if env.cacheClearFails then
          (UploadResult.serverError "cache clear failed", w3)
        else
          let w4 := stateClear w3 "video-lists"
          if env.emitFails then
            (UploadResult.serverError "emit failed", w4)
          else
            let w5 := { w4 with events := w4.events ++
              [Event.videoUploaded videoId s3Key filename contentType buffer.length publicUrl] }
            (UploadResult.ok videoId s3Key publicUrl, w5)

/-- Response of the `ListVideos` API handler (200 / 500). -/
inductive ListResult where
  | ok (videos : List VideoMetadata) (count : Nat)
  | serverError (error : String)
deriving DecidableEq, Repr

/-- The cache-aside `ListVideos` handler of `list-videos.step.ts`: check
`video-lists[list:<limit>]`; on hit return it; on miss query the table, cache
the result, return it. The single try/catch turns any thrown step into a 500. -/
def listVideosHandler (env : Env) (limit : Nat) (w : World) : ListResult × World :=
  if env.cacheGetFails then
    (ListResult.serverError "cache get failed", w)
  else
    match cacheGet w.cache "video-lists" ("list:" ++ toString limit) with
    | some (CacheValue.listRes vs c) => (ListResult.ok vs c, w)
    | _ =>
      if env.dbFails then
        (ListResult.serverError "db failed", w)
      else
        let videos := listVideosDb w.db limit
        if env.cacheSetFails then
          (ListResult.serverError "cache set failed", w)
        else
          let w1 := stateSet w "video-lists" ("list:" ++ toString limit)
            (CacheValue.listRes videos videos.length)
          (ListResult.ok videos videos.length, w1)

/-- Response of the `GetVideo` API handler (200 / 404 / 500). -/
inductive GetResult where
  | ok (v : VideoMetadata)
  | notFound
  | serverError (error : String)
deriving DecidableEq, Repr

/-- The `GetVideo` handler of `get-video.step.ts`: it calls
`VideoService.getVideoMetadata` directly and returns 404 when absent. Its
context destructures only `logger`; the Motia state cache is not consulted
and not written. -/
def getVideoHandler (env : Env) (videoId : String) (w : World) : GetResult × World :=
  if env.dbFails then
    (GetResult.serverError "db failed", w)
  else
    match getVideoMetadata w.db videoId with
    | none => (GetResult.notFound, w)
    | some v => (GetResult.ok v, w)

/-- Response of the `DeleteVideo` API handler (200 / 404 / 500). -/
inductive DeleteResult where
  | ok (videoId : String)
  | notFound
  | serverError (error : String)
deriving DecidableEq, Repr

/-- The `DeleteVideo` handler of `delete-video.step.ts`: read the row (404 when
absent), delete it from the table (404 when the delete reports no row), then
`state.delete('videos', id)`, `state.clear('video-lists')`, and emit
`video-deleted`. One try/catch turns any thrown step into a 500. -/
def deleteVideoHandler (env : Env) (videoId : String) (w : World) : DeleteResult × World :=
  if env.dbFails then
    (DeleteResult.serverError "db failed", w)
  else
    match getVideoMetadata w.db videoId with
    | none => (DeleteResult.notFound, w)
    | some video =>
      let del := deleteVideoDb w.db videoId
      if !del.2 then
        (DeleteResult.notFound, { w with db := del.1 })
      else
        let w1 := { w with db := del.1 }
        if env.cacheDeleteFails then
          (DeleteResult.serverError "cache delete failed", w1)
        else
          let w2 := stateDelete w1 "videos" videoId
          if env.cacheClearFails then
            (DeleteResult.serverError "cache clear failed", w2)
          else
            let w3 := stateClear w2 "video-lists"
            if env.emitFails then
              (DeleteResult.serverError "emit failed", w3)
            else
              (DeleteResult.ok videoId,
               { w3 with events := w3.events ++
                 [Event.videoDeleted videoId video.s3Key video.filename] })

/-- The `video-uploaded` completion-signal payload consumed by
`ProcessVideoUpload`. -/
structure UploadEventInput where
  videoId : String
  s3Key : String
  filename : String
  contentType : String
  size : Nat
  publicUrl : String
deriving DecidableEq, Repr

/-- `S3Service.verifyObjectExists`: a HEAD probe whose own errors are caught
inside the service and reported as `false`; it never throws. -/
def verifyObjectExists (env : Env) (w : World) (s3Key : String) : Bool :=
  if env.s3VerifyErrors then false else w.s3Keys.contains s3Key

/-- Outcome of an event handler: a normal return, or an error escaping it. -/
inductive HandlerResult where
  | returned (w : World)
  | raised (error : String) (w : World)
deriving DecidableEq, Repr

/-- The world a handler left behind, whether it returned or raised. -/
def HandlerResult.world : HandlerResult → World
  | returned w => w
  | raised _ w => w

/-- The tail of the `ProcessVideoUpload` try-block after the verification
step: metadata re-upsert, `videos` write-through with a fresh `createdAt`,
`getGroup` over the list caches, and `clear('video-lists')`. An `error`
result is a thrown step, carrying the world as mutated up to that point. -/
def reconcileFinish (env : Env) (inp : UploadEventInput) (now : Nat)
    (w1 : World) : Except (String × World) World :=
  if env.dbFails then Except.error ("db failed", w1)
  else
    let db2 := (createVideoMetadata w1.db inp.videoId inp.filename inp.contentType
      inp.size inp.s3Key (some inp.publicUrl) env.publicUrlBase now).1
    let w2 := { w1 with db := db2 }
    if env.cacheSetFails then Except.error ("cache set failed", w2)
    else
      let w3 := stateSet w2 "videos" inp.videoId
        (CacheValue.vid ⟨inp.videoId, inp.filename, inp.contentType, inp.size,
          now, inp.s3Key, inp.publicUrl⟩)
      if env.cacheGetGroupFails then Except.error ("cache getGroup failed", w3)
      else if env.cacheClearFails then Except.error ("cache clear failed", w3)
      else Except.ok (stateClear w3 "video-lists")

/-- The try-block of the `ProcessVideoUpload` handler: existence-check cache
read, S3 probe on miss (caching only a positive `true` result), then the
re-upsert/write-through/invalidate tail in `reconcileFinish`. -/
def processVideoUploadBody (env : Env) (inp : UploadEventInput) (now : Nat)
    (w : World) : Except (String × World) World :=
  if env.cacheGetFails then Except.error ("cache get failed", w)
  else
    match cacheGet w.cache "s3-verifications" ("s3-verify:" ++ inp.s3Key) with
    | some (CacheValue.boolVal _) => reconcileFinish env inp now w
    | _ =>
      if verifyObjectExists env w inp.s3Key then
        if env.cacheSetFails then Except.error ("cache set failed", w)
        else reconcileFinish env inp now
          (stateSet w "s3-verifications" ("s3-verify:" ++ inp.s3Key)
            (CacheValue.boolVal true))
      else reconcileFinish env inp now w

/-- The full `ProcessVideoUpload` handler: the catch clause logs and swallows,
so every outcome of the body becomes a normal return. -/
def processVideoUploadHandler (env : Env) (inp : UploadEventInput) (now : Nat)
    (w : World) : HandlerResult :=
  match processVideoUploadBody env inp now w with
  | Except.ok w1 => HandlerResult.returned w1
  | Except.error (_, w1) => HandlerResult.returned w1

/-- A sequence of reconciler executions, each with its own environment,
input and clock tick. -/
def runReconciler : List (Env × UploadEventInput × Nat) → World → World
  | [], w => w
  | (env, inp, now) :: rest, w =>
    runReconciler rest (processVideoUploadHandler env inp now w).world

/-- The negative-caching invariant: no `s3-verifications` entry holds `false`. -/
def badEntry (e : CacheEntry) : Bool :=
  e.1.1 == "s3-verifications" &&
    (match e.2 with
     | CacheValue.boolVal false => true
     | _ => false)

/-- No entry of the `s3-verifications` group carries the value `false`. -/
def noFalseVerification (c : Cache) : Bool :=
  c.all (fun e => !(badEntry e))

/-- The world a try-block outcome left behind: on a thrown step, the world at
the failure point (TypeScript does not roll back earlier mutations). -/
def exceptWorld : Except (String × World) World → World
  | Except.ok w => w
  | Except.error (_, w) => w

/-- The table's PRIMARY KEY discipline: no two rows share an id. -/
def idsUnique : List VideoRow → Bool
  | [] => true
  | r :: rs => !(rs.any (fun x => x.id == r.id)) && idsUnique rs

/-- The per-call arguments of one `createVideoMetadata` upsert (all fields
except the id, which is fixed across the sequence). -/
structure UpsertArgs where
  filename : String
  contentType : String
  size : Nat
  s3Key : String
  publicUrl : String
  tick : Nat
deriving DecidableEq, Repr

/-- Applies a sequence of upserts for one id to the table. -/
def applyUpserts (videoId : String) : List UpsertArgs → List VideoRow → List VideoRow
  | [], db => db
  | a :: rest, db =>
    applyUpserts videoId rest
      (upsertVideo db videoId a.filename a.contentType a.size a.s3Key a.publicUrl a.tick)

/-- An environment where every external call succeeds. -/
def happyEnv : Env :=
  ⟨"v1", "https://bucket.sevalla.storage",
   false, false, false, false, false, false, false, false, false⟩

/-- An environment where `state.set` throws and everything else succeeds. -/
def cacheSetFailEnv : Env := { happyEnv with cacheSetFails := true }

/-- An environment where `state.get` throws and everything else succeeds. -/
def cacheGetFailEnv : Env := { happyEnv with cacheGetFails := true }

/-- An environment where `state.get` and `state.set` throw. -/
def bothFailEnv : Env :=
  { happyEnv with cacheGetFails := true, cacheSetFails := true }

/-- A concrete durable row used by the examples. -/
def exRowDb : VideoRow :=
  ⟨"id1", "a.webm", "video/webm", 10, 5, "videos/id1.webm",
   "https://bucket.sevalla.storage/videos/id1.webm"⟩

/-- A stale cached snapshot for the same id that disagrees with the row. -/
def exCachedMeta : VideoMetadata :=
  ⟨"id1", "a.webm", "video/webm", 99, 7, "videos/id1.webm",
   "https://cached.example/stale"⟩

/-- A world whose `videos` cache group holds a stale entry for `id1`. -/
def exWorldHit : World :=
  ⟨[exRowDb], [(("videos", "id1"), CacheValue.vid exCachedMeta)],
   ["videos/id1.webm"], [], []⟩

/-- A world with the row present and a cold cache. -/
def exWorldMiss : World := ⟨[exRowDb], [], ["videos/id1.webm"], [], []⟩

/-- The empty world. -/
def emptyWorld : World := ⟨[], [], [], [], []⟩

/-- A provisional row reserved by the two-phase path with `size = 0`. -/
def provRow : VideoRow :=
  ⟨"id2", "b.webm", "video/webm", 0, 3, "videos/id2.webm",
   "https://bucket.sevalla.storage/videos/id2.webm"⟩

/-- A concrete completion-signal payload for `id1`. -/
def exInput : UploadEventInput :=
  ⟨"id1", "videos/id1.webm", "a.webm", "video/webm", 10,
   "https://bucket.sevalla.storage/videos/id1.webm"⟩

/-! ### Helper lemmas on the table representation -/

lemma any_of_find {db : List VideoRow} {videoId : String} {r : VideoRow}
    (h : dbFind db videoId = some r) :
    db.any (fun x => x.id == videoId) = true := by
  induction db with
  | nil => simp [dbFind] at h
  | cons x xs ih =>
    cases hx : x.id == videoId with
    | true => simp [hx]
    | false =>
      simp only [dbFind, List.find?_cons, hx] at h
      simp [hx, ih h]

lemma updRow_pos {videoId u : String} {r : VideoRow} (h : (r.id == videoId) = true) :
    updRow videoId u r = { r with publicUrl := u } := by
  unfold updRow; rw [if_pos h]

lemma updRow_neg {videoId u : String} {r : VideoRow} (h : (r.id == videoId) = false) :
    updRow videoId u r = r := by
  unfold updRow; rw [if_neg]; simp [h]

lemma updRow_id (videoId u : String) (r : VideoRow) :
    (updRow videoId u r).id = r.id := by
  unfold updRow; split <;> rfl

lemma find_map_update {db : List VideoRow} {videoId : String} {r0 : VideoRow} {u : String}
    (h : dbFind db videoId = some r0) :
    dbFind (db.map (updRow videoId u)) videoId = some { r0 with publicUrl := u } := by
  induction db with
  | nil => simp [dbFind] at h
  | cons x xs ih =>
    cases hx : x.id == videoId with
    | true =>
      unfold dbFind at h
      simp only [List.find?_cons_of_pos, hx] at h
      cases h
      rw [List.map_cons, updRow_pos hx]
      unfold dbFind
      simp only [List.find?_cons_of_pos, hx]
    | false =>
      rw [dbFind, List.find?_cons_of_neg] at h
      · rw [List.map_cons, updRow_neg hx, dbFind, List.find?_cons_of_neg]
        · exact ih h
        · simp [hx]
      · simp [hx]

lemma upsert_existing {db : List VideoRow} {videoId : String} {r0 : VideoRow}
    (filename contentType : String) (size : Nat) (s3Key publicUrl : String) (now : Nat)
    (h : dbFind db videoId = some r0) :
    dbFind (upsertVideo db videoId filename contentType size s3Key publicUrl now) videoId
      = some { r0 with publicUrl := publicUrl } := by
  unfold upsertVideo
  rw [any_of_find h, if_pos rfl]
  exact find_map_update h

lemma map_update_of_not_any {db : List VideoRow} {videoId u : String}
    (h : db.any (fun r => r.id == videoId) = false) :
    db.map (updRow videoId u) = db := by
  induction db with
  | nil => rfl
  | cons x xs ih =>
    simp only [List.any_cons, Bool.or_eq_false_iff] at h
    rw [List.map_cons, updRow_neg h.1, ih h.2]

lemma find_append_of_none {l₁ l₂ : List VideoRow} {videoId : String}
    (h : dbFind l₁ videoId = none) :
    dbFind (l₁ ++ l₂) videoId = dbFind l₂ videoId := by
  induction l₁ with
  | nil => rfl
  | cons x xs ih =>
    cases hx : x.id == videoId with
    | true =>
      unfold dbFind at h
      simp only [List.find?_cons_of_pos, hx] at h
      cases h
    | false =>
      rw [dbFind, List.find?_cons_of_neg] at h
      · rw [List.cons_append, dbFind, List.find?_cons_of_neg]
        · exact ih h
        · simp [hx]
      · simp [hx]

lemma find_none_of_not_any {db : List VideoRow} {videoId : String}
    (h : db.any (fun r => r.id == videoId) = false) :
    dbFind db videoId = none := by
  induction db with
  | nil => rfl
  | cons x xs ih =>
    simp only [List.any_cons, Bool.or_eq_false_iff] at h
    rw [dbFind, List.find?_cons_of_neg]
    · exact ih h.2
    · simp [h.1]

lemma updRow_idem (videoId u : String) (r : VideoRow) :
    updRow videoId u (updRow videoId u r) = updRow videoId u r := by
  cases hx : r.id == videoId with
  | true =>
    rw [updRow_pos hx]
    have hx2 : (VideoRow.id { r with publicUrl := u } == videoId) = true := hx
    rw [updRow_pos hx2]
  | false => rw [updRow_neg hx, updRow_neg hx]

lemma map_update_idem (db : List VideoRow) (videoId u : String) :
    (db.map (updRow videoId u)).map (updRow videoId u) = db.map (updRow videoId u) := by
  induction db with
  | nil => rfl
  | cons x xs ih => simp only [List.map_cons, updRow_idem, ih]

lemma any_map_update (db : List VideoRow) (videoId u : String) :
    (db.map (updRow videoId u)).any (fun r => r.id == videoId)
      = db.any (fun r => r.id == videoId) := by
  induction db with
  | nil => rfl
  | cons x xs ih =>
    simp only [List.map_cons, List.any_cons, ih, updRow_id]

lemma filter_map_update_length (db : List VideoRow) (videoId u : String) :
    ((db.map (updRow videoId u)).filter (fun r => r.id == videoId)).length
      = (db.filter (fun r => r.id == videoId)).length := by
  induction db with
  | nil => rfl
  | cons x xs ih =>
    rw [List.map_cons, List.filter_cons, List.filter_cons, updRow_id]
    cases hx : x.id == videoId with
    | true => simp [ih]
    | false => simp [ih]

lemma filter_eq_nil_of_not_any {db : List VideoRow} {videoId : String}
    (h : db.any (fun r => r.id == videoId) = false) :
    db.filter (fun r => r.id == videoId) = [] := by
  induction db with
  | nil => rfl
  | cons x xs ih =>
    simp only [List.any_cons, Bool.or_eq_false_iff] at h
    rw [List.filter_cons, h.1]
    exact ih h.2

lemma filter_length_one {db : List VideoRow} {videoId : String}
    (hu : idsUnique db = true) (ha : db.any (fun r => r.id == videoId) = true) :
    (db.filter (fun r => r.id == videoId)).length = 1 := by
  induction db with
  | nil => cases ha
  | cons x xs ih =>
    simp only [idsUnique, Bool.and_eq_true, Bool.not_eq_true'] at hu
    rw [List.filter_cons]
    cases hx : x.id == videoId with
    | true =>
      have hid : x.id = videoId := eq_of_beq hx
      have hnone : xs.any (fun r => r.id == videoId) = false := by
        rw [← hid]; exact hu.1
      rw [filter_eq_nil_of_not_any hnone]
      rfl
    | false =>
      simp only [List.any_cons, hx, Bool.false_or] at ha
      exact ih hu.2 ha

lemma upsertVideo_pos {db : List VideoRow} {videoId : String}
    (ha : db.any (fun r => r.id == videoId) = true)
    (filename contentType : String) (size : Nat) (s3Key u : String) (t : Nat) :
    upsertVideo db videoId filename contentType size s3Key u t
      = db.map (updRow videoId u) := by
  unfold upsertVideo; rw [if_pos ha]

lemma upsertVideo_neg {db : List VideoRow} {videoId : String}
    (ha : db.any (fun r => r.id == videoId) = false)
    (filename contentType : String) (size : Nat) (s3Key u : String) (t : Nat) :
    upsertVideo db videoId filename contentType size s3Key u t
      = db ++ [⟨videoId, filename, contentType, size, t, s3Key, u⟩] := by
  unfold upsertVideo; rw [if_neg (by simp [ha])]

lemma find_some_of_any {db : List VideoRow} {videoId : String}
    (h : db.any (fun r => r.id == videoId) = true) :
    ∃ r, dbFind db videoId = some r := by
  induction db with
  | nil => cases h
  | cons x xs ih =>
    cases hx : x.id == videoId with
    | true =>
      refine ⟨x, ?_⟩
      unfold dbFind
      simp only [List.find?_cons_of_pos, hx]
    | false =>
      simp only [List.any_cons, hx, Bool.false_or] at h
      obtain ⟨r, hr⟩ := ih h
      refine ⟨r, ?_⟩
      rw [dbFind, List.find?_cons_of_neg]
      · exact hr
      · simp [hx]

lemma find_upsert_ne_none (db : List VideoRow) (videoId filename contentType : String)
    (size : Nat) (s3Key u : String) (t : Nat) :
    dbFind (upsertVideo db videoId filename contentType size s3Key u t) videoId
      ≠ none := by
  cases ha : db.any (fun r => r.id == videoId) with
  | true =>
    obtain ⟨r, hr⟩ := find_some_of_any ha
    rw [upsert_existing _ _ _ _ _ _ hr]
    simp
  | false =>
    rw [upsertVideo_neg ha, find_append_of_none (find_none_of_not_any ha)]
    simp [dbFind]

lemma upsertVideo_idem (db : List VideoRow) (videoId filename contentType : String)
    (size : Nat) (s3Key u : String) (t1 t2 : Nat) :
    upsertVideo (upsertVideo db videoId filename contentType size s3Key u t1)
        videoId filename contentType size s3Key u t2
      = upsertVideo db videoId filename contentType size s3Key u t1 := by
  cases ha : db.any (fun r => r.id == videoId) with
  | true =>
    rw [upsertVideo_pos ha, upsertVideo_pos (by rw [any_map_update]; exact ha)]
    exact map_update_idem db videoId u
  | false =>
    rw [upsertVideo_neg ha]
    have hany : (db ++ [(⟨videoId, filename, contentType, size, t1, s3Key, u⟩ :
        VideoRow)]).any (fun r => r.id == videoId) = true := by
      rw [List.any_append]; simp
    rw [upsertVideo_pos hany, List.map_append, map_update_of_not_any ha]
    congr 1
    simp only [List.map_cons, List.map_nil]
    rw [updRow_pos (by simp)]

lemma upsert_count_one (db : List VideoRow) (videoId filename contentType : String)
    (size : Nat) (s3Key u : String) (t : Nat) (hu : idsUnique db = true) :
    ((upsertVideo db videoId filename contentType size s3Key u t).filter
       (fun r => r.id == videoId)).length = 1 := by
  cases ha : db.any (fun r => r.id == videoId) with
  | true =>
    rw [upsertVideo_pos ha, filter_map_update_length]
    exact filter_length_one hu ha
  | false =>
    rw [upsertVideo_neg ha, List.filter_append, filter_eq_nil_of_not_any ha]
    simp

/-! ### Helper lemmas on the verification-cache invariant -/

lemma badEntry_boolTrue (g k : String) :
    badEntry ((g, k), CacheValue.boolVal true) = false := by
  simp [badEntry]

lemma badEntry_vid (g k : String) (m : VideoMetadata) :
    badEntry ((g, k), CacheValue.vid m) = false := by
  simp [badEntry]

lemma noFalse_filter {c : Cache} (p : CacheEntry → Bool)
    (h : noFalseVerification c = true) :
    noFalseVerification (c.filter p) = true := by
  simp only [noFalseVerification, List.all_eq_true] at h ⊢
  intro e he
  exact h e (List.mem_of_mem_filter he)

lemma noFalse_cacheSet {c : Cache} {g k : String} {v : CacheValue}
    (h : noFalseVerification c = true) (hv : badEntry ((g, k), v) = false) :
    noFalseVerification (cacheSet c g k v) = true := by
  simp only [noFalseVerification, List.all_eq_true] at h ⊢
  intro e he
  simp only [cacheSet] at he
  cases List.mem_cons.mp he with
  | inl h1 => subst h1; simp [hv]
  | inr h2 => exact h e (List.mem_of_mem_filter h2)

lemma noFalse_stateSet {w : World} {g k : String} {v : CacheValue}
    (h : noFalseVerification w.cache = true) (hv : badEntry ((g, k), v) = false) :
    noFalseVerification (stateSet w g k v).cache = true :=
  noFalse_cacheSet h hv

lemma noFalse_stateClear {w : World} {g : String}
    (h : noFalseVerification w.cache = true) :
    noFalseVerification (stateClear w g).cache = true :=
  noFalse_filter _ h

lemma noFalse_reconcileFinish (env : Env) (inp : UploadEventInput) (now : Nat)
    (w1 : World) (h : noFalseVerification w1.cache = true) :
    noFalseVerification (exceptWorld (reconcileFinish env inp now w1)).cache = true := by
  unfold reconcileFinish
  by_cases hdb : env.dbFails = true
  · rw [if_pos hdb]; exact h
  · rw [if_neg hdb]
    by_cases hset : env.cacheSetFails = true
    · rw [if_pos hset]; exact h
    · rw [if_neg hset]
      by_cases hgg : env.cacheGetGroupFails = true
      · rw [if_pos hgg]
        exact noFalse_stateSet h (badEntry_vid _ _ _)
      · rw [if_neg hgg]
        by_cases hcl : env.cacheClearFails = true
        · rw [if_pos hcl]
          exact noFalse_stateSet h (badEntry_vid _ _ _)
        · rw [if_neg hcl]
          exact noFalse_stateClear (noFalse_stateSet h (badEntry_vid _ _ _))

lemma handler_world_eq (env : Env) (inp : UploadEventInput) (now : Nat) (w : World) :
    (processVideoUploadHandler env inp now w).world
      = exceptWorld (processVideoUploadBody env inp now w) := by
  unfold processVideoUploadHandler
  cases hb : processVideoUploadBody env inp now w with
  | ok w1 => rfl
  | error e => obtain ⟨s, w1⟩ := e; rfl

lemma noFalse_reconciler_step (env : Env) (inp : UploadEventInput) (now : Nat)
    (w : World) (h : noFalseVerification w.cache = true) :
    noFalseVerification ((processVideoUploadHandler env inp now w).world).cache = true := by
  rw [handler_world_eq]
  unfold processVideoUploadBody
  by_cases hg : env.cacheGetFails = true
  · rw [if_pos hg]; exact h
  · rw [if_neg hg]
    cases hcv : cacheGet w.cache "s3-verifications" ("s3-verify:" ++ inp.s3Key) with
    | none =>
      by_cases hex : verifyObjectExists env w inp.s3Key = true
      · rw [if_pos hex]
        by_cases hset : env.cacheSetFails = true
        · rw [if_pos hset]; exact h
        · rw [if_neg hset]
          exact noFalse_reconcileFinish env inp now _
            (noFalse_stateSet h (badEntry_boolTrue _ _))
      · rw [if_neg hex]
        exact noFalse_reconcileFinish env inp now w h
    | some v =>
      cases v with
      | boolVal b => exact noFalse_reconcileFinish env inp now w h
      | vid m =>
        by_cases hex : verifyObjectExists env w inp.s3Key = true
        · rw [if_pos hex]
          by_cases hset : env.cacheSetFails = true
          · rw [if_pos hset]; exact h
          · rw [if_neg hset]
            exact noFalse_reconcileFinish env inp now _
              (noFalse_stateSet h (badEntry_boolTrue _ _))
        · rw [if_neg hex]
          exact noFalse_reconcileFinish env inp now w h
      | listRes vs c =>
        by_cases hex : verifyObjectExists env w inp.s3Key = true
        · rw [if_pos hex]
          by_cases hset : env.cacheSetFails = true
          · rw [if_pos hset]; exact h
          · rw [if_neg hset]
            exact noFalse_reconcileFinish env inp now _
              (noFalse_stateSet h (badEntry_boolTrue _ _))
        · rw [if_neg hex]
          exact noFalse_reconcileFinish env inp now w h
      | uploadRec a b c =>
        by_cases hex : verifyObjectExists env w inp.s3Key = true
        · rw [if_pos hex]
          by_cases hset : env.cacheSetFails = true
          · rw [if_pos hset]; exact h
          · rw [if_neg hset]
            exact noFalse_reconcileFinish env inp now _
              (noFalse_stateSet h (badEntry_boolTrue _ _))
        · rw [if_neg hex]
          exact noFalse_reconcileFinish env inp now w h

/-! ### Claim theorems -/

/-- C4: when `createVideoMetadata` hits an existing row for the id, the only
stored column it modifies is `public_url` (set to the resolved final URL);
`filename`, `content_type`, `size`, `created_at` and `s3_key` keep their
previously stored values. -/
theorem upsert_conflict_only_public_url (db : List VideoRow)
    (videoId filename contentType : String) (size : Nat) (s3Key : String)
    (publicUrl : Option String) (publicUrlBase : String) (now : Nat)
    (r0 : VideoRow) (h : dbFind db videoId = some r0) :
    dbFind (createVideoMetadata db videoId filename contentType size s3Key
        publicUrl publicUrlBase now).1 videoId
      = some { r0 with
          publicUrl := publicUrl.getD (generatePublicUrl publicUrlBase s3Key) } :=
  upsert_existing filename contentType size s3Key _ now h

/-- Witness for C4: a provisional row with `size = 0` re-upserted with
`size = 10` keeps its stored size `0`, only its `public_url` changing. -/
theorem upsert_conflict_only_public_url_witness :
    dbFind (createVideoMetadata [provRow] "id2" "b.webm" "video/webm" 10
        "videos/id2.webm" (some "https://u") "base" 9).1 "id2"
      = some { provRow with publicUrl := "https://u" }
    ∧ provRow.size = 0
    ∧ (VideoRow.size { provRow with publicUrl := "https://u" }) = 0 :=
  ⟨upsert_conflict_only_public_url [provRow] "id2" "b.webm" "video/webm" 10
      "videos/id2.webm" (some "https://u") "base" 9 provRow rfl, rfl, rfl⟩

/-- C6: calling the persistence upsert twice with the same id and the same
field values leaves the table equal to the state after a single call, and
that state holds exactly one row for the id. -/
theorem upsert_idempotent (db : List VideoRow) (videoId filename contentType : String)
    (size : Nat) (s3Key : String) (publicUrl : Option String) (publicUrlBase : String)
    (t1 t2 : Nat) (hu : idsUnique db = true) :
    (createVideoMetadata (createVideoMetadata db videoId filename contentType size
        s3Key publicUrl publicUrlBase t1).1 videoId filename contentType size
        s3Key publicUrl publicUrlBase t2).1
      = (createVideoMetadata db videoId filename contentType size s3Key publicUrl
          publicUrlBase t1).1
    ∧ (((createVideoMetadata db videoId filename contentType size s3Key publicUrl
          publicUrlBase t1).1).filter (fun r => r.id == videoId)).length = 1 :=
  ⟨upsertVideo_idem db videoId filename contentType size s3Key _ t1 t2,
   upsert_count_one db videoId filename contentType size s3Key _ t1 hu⟩

/-- Witness for C6 at a concrete table, id and field values. -/
theorem upsert_idempotent_witness :
    (createVideoMetadata (createVideoMetadata [exRowDb] "id1" "a.webm" "video/webm"
        10 "videos/id1.webm" (some "https://u") "b" 5).1 "id1" "a.webm" "video/webm"
        10 "videos/id1.webm" (some "https://u") "b" 9).1
      = (createVideoMetadata [exRowDb] "id1" "a.webm" "video/webm" 10
          "videos/id1.webm" (some "https://u") "b" 5).1
    ∧ (((createVideoMetadata [exRowDb] "id1" "a.webm" "video/webm" 10
          "videos/id1.webm" (some "https://u") "b" 5).1).filter
            (fun r => r.id == "id1")).length = 1 :=
  upsert_idempotent [exRowDb] "id1" "a.webm" "video/webm" 10 "videos/id1.webm"
    (some "https://u") "b" 5 9 rfl

/-- C7: across any sequence of upserts for the same id, the stored row keeps
its `id` and `s3_key` values once set. -/
theorem id_s3key_immutable (db : List VideoRow) (videoId : String) (r0 : VideoRow)
    (args : List UpsertArgs) (h : dbFind db videoId = some r0) :
    ∃ r, dbFind (applyUpserts videoId args db) videoId = some r
      ∧ r.id = r0.id ∧ r.s3Key = r0.s3Key := by
  induction args generalizing db r0 with
  | nil => exact ⟨r0, h, rfl, rfl⟩
  | cons a rest ih =>
    have h1 := upsert_existing a.filename a.contentType a.size a.s3Key a.publicUrl
      a.tick h
    obtain ⟨r, hr, hid, hs3⟩ := ih _ _ h1
    exact ⟨r, hr, hid, hs3⟩

/-- Witness for C7: an upsert carrying a different filename, content type,
size, s3 key and URL still leaves the original id and s3_key stored. -/
theorem id_s3key_immutable_witness :
    ∃ r, dbFind (applyUpserts "id1"
        [⟨"b.webm", "video/mp4", 3, "other-key", "https://u2", 9⟩] [exRowDb]) "id1"
      = some r ∧ r.id = exRowDb.id ∧ r.s3Key = exRowDb.s3Key :=
  id_s3key_immutable [exRowDb] "id1" exRowDb
    [⟨"b.webm", "video/mp4", 3, "other-key", "https://u2", 9⟩] rfl

/-- C3 counterexample: a row inserted at tick 5 and re-upserted at tick 9
keeps `created_at = 5` in the store - the persisted timestamp is NOT
re-derived at the time of the re-upsert. -/
theorem created_at_not_rederived_cex :
    dbFind (createVideoMetadata
        (createVideoMetadata [] "id1" "a.webm" "video/webm" 10 "k" (some "u")
          "base" 5).1
        "id1" "a.webm" "video/webm" 10 "k" (some "u2") "base" 9).1 "id1"
      = some ⟨"id1", "a.webm", "video/webm", 10, 5, "k", "u2"⟩
    ∧ (5 : Nat) ≠ 9 :=
  ⟨rfl, by decide⟩

/-- C3 amended: on a re-upsert of an existing id the persisted `created_at`
keeps the original row's value; only the in-memory record returned by
`createVideoMetadata` carries a timestamp derived at the time of the call. -/
theorem created_at_preserved_in_store (db : List VideoRow)
    (videoId filename contentType : String) (size : Nat) (s3Key : String)
    (publicUrl : Option String) (publicUrlBase : String) (now : Nat)
    (r0 : VideoRow) (h : dbFind db videoId = some r0) :
    (∃ r, dbFind (createVideoMetadata db videoId filename contentType size s3Key
        publicUrl publicUrlBase now).1 videoId = some r
      ∧ r.createdAt = r0.createdAt)
    ∧ (createVideoMetadata db videoId filename contentType size s3Key publicUrl
        publicUrlBase now).2.createdAt = now :=
  ⟨⟨{ r0 with publicUrl := publicUrl.getD (generatePublicUrl publicUrlBase s3Key) },
     upsert_existing filename contentType size s3Key _ now h, rfl⟩, rfl⟩

/-- Witness for C3 amended at a concrete row and tick. -/
theorem created_at_preserved_in_store_witness :
    (∃ r, dbFind (createVideoMetadata [exRowDb] "id1" "a.webm" "video/webm" 10
        "videos/id1.webm" (some "https://u") "b" 9).1 "id1" = some r
      ∧ r.createdAt = exRowDb.createdAt)
    ∧ (createVideoMetadata [exRowDb] "id1" "a.webm" "video/webm" 10
        "videos/id1.webm" (some "https://u") "b" 9).2.createdAt = 9 :=
  created_at_preserved_in_store [exRowDb] "id1" "a.webm" "video/webm" 10
    "videos/id1.webm" (some "https://u") "b" 9 exRowDb rfl

/-- C1 counterexample: with a stale `videos` cache entry for `id1` present
(a cache hit), the `GetVideo` handler still answers from the Metadata Store,
not from the cache; and on a cache miss with the record found, nothing is
written through to the cache. -/
theorem getById_ignores_cache_cex :
    cacheGet exWorldHit.cache "videos" "id1" = some (CacheValue.vid exCachedMeta)
    ∧ (getVideoHandler happyEnv "id1" exWorldHit).1 = GetResult.ok (rowToMetadata exRowDb)
    ∧ rowToMetadata exRowDb ≠ exCachedMeta
    ∧ getVideoMetadata exWorldMiss.db "id1" = some (rowToMetadata exRowDb)
    ∧ (getVideoHandler happyEnv "id1" exWorldMiss).2.cache = [] := by
  refine ⟨rfl, rfl, ?_, rfl, rfl⟩
  decide

/-- C1 amended: `getById` does not consult the objects-by-id cache at all: it
always reads the Metadata Store, returns the stored record when found without
writing it to the cache, returns not-found when absent, and leaves the world
(cache included) unchanged; its response is independent of the cache
contents. -/
theorem getById_reads_store_directly (env : Env) (videoId : String) (w : World)
    (h : env.dbFails = false) :
    (getVideoHandler env videoId w).2 = w
    ∧ (∀ c', (getVideoHandler env videoId { w with cache := c' }).1
        = (getVideoHandler env videoId w).1)
    ∧ (∀ v, getVideoMetadata w.db videoId = some v →
        (getVideoHandler env videoId w).1 = GetResult.ok v)
    ∧ (getVideoMetadata w.db videoId = none →
        (getVideoHandler env videoId w).1 = GetResult.notFound) := by
  have hdb : ¬ env.dbFails = true := by simp [h]
  refine ⟨?_, ?_, ?_, ?_⟩
  · unfold getVideoHandler
    rw [if_neg hdb]
    cases hm : getVideoMetadata w.db videoId <;> rfl
  · intro c'
    unfold getVideoHandler
    rw [if_neg hdb, if_neg hdb]
    show (match getVideoMetadata w.db videoId with
        | none => (GetResult.notFound, { w with cache := c' })
        | some v => (GetResult.ok v, { w with cache := c' })).1
      = (match getVideoMetadata w.db videoId with
        | none => (GetResult.notFound, w)
        | some v => (GetResult.ok v, w)).1
    cases getVideoMetadata w.db videoId <;> rfl
  · intro v hv
    unfold getVideoHandler
    rw [if_neg hdb, hv]
  · intro hn
    unfold getVideoHandler
    rw [if_neg hdb, hn]

/-- Witness for C1 amended on a concrete world with a cold cache. -/
theorem getById_reads_store_directly_witness :
    (getVideoHandler happyEnv "id1" exWorldMiss).2 = exWorldMiss :=
  (getById_reads_store_directly happyEnv "id1" exWorldMiss rfl).1

/-- C2 counterexample: after the blob upload and the Metadata Store write
succeed, a throwing `state.set` makes the direct-upload handler answer the
500 response (not success), the record being durably stored nonetheless; and
a throwing `state.get` makes the list handler answer 500 instead of falling
back to the store. -/
theorem cache_failure_fatal_cex :
    (uploadVideoHandler cacheSetFailEnv [1, 2, 3] "a.webm" "video/webm" 5
        emptyWorld).1
      = UploadResult.serverError "cache set failed"
    ∧ dbFind (uploadVideoHandler cacheSetFailEnv [1, 2, 3] "a.webm" "video/webm" 5
        emptyWorld).2.db "v1"
      = some ⟨"v1", "a.webm", "video/webm", 3, 5, "videos/v1.webm",
          "https://bucket.sevalla.storage/videos/v1.webm"⟩
    ∧ (listVideosHandler cacheGetFailEnv 50 emptyWorld).1
      = ListResult.serverError "cache get failed" :=
  ⟨rfl, rfl, rfl⟩

/-- C2 amended: cache failures are swallowed only in the reconciler; in the
direct-upload and list handlers a cache-operation failure propagates to the
handler's top-level catch, which returns a 500 error to the caller - the blob
and Metadata Store writes already performed are kept, and a failing cache
read in list is not followed by a Metadata Store fallback. -/
theorem cache_failure_returns_500 (env : Env) (buffer : List Nat)
    (filename contentType : String) (now : Nat) (w : World) (limit : Nat)
    (hb : buffer.length ≠ 0) (hs3 : env.s3UploadFails = false)
    (hdb : env.dbFails = false) (hset : env.cacheSetFails = true)
    (hget : env.cacheGetFails = true) :
    (uploadVideoHandler env buffer filename contentType now w).1
      = UploadResult.serverError "cache set failed"
    ∧ dbFind (uploadVideoHandler env buffer filename contentType now w).2.db
        env.freshId ≠ none
    ∧ (uploadVideoHandler env buffer filename contentType now w).2.s3Keys
        = s3KeyOf env.freshId filename :: w.s3Keys
    ∧ listVideosHandler env limit w = (ListResult.serverError "cache get failed", w) := by
  have hb0 : ¬ (buffer.length == 0) = true := by simp [hb]
  have hs3' : ¬ env.s3UploadFails = true := by simp [hs3]
  have hdb' : ¬ env.dbFails = true := by simp [hdb]
  refine ⟨?_, ?_, ?_, ?_⟩
  · unfold uploadVideoHandler
    rw [if_neg hb0, if_neg hs3', if_neg hdb', if_pos hset]
  · unfold uploadVideoHandler
    rw [if_neg hb0, if_neg hs3', if_neg hdb', if_pos hset]
    exact find_upsert_ne_none w.db env.freshId filename contentType buffer.length
      (s3KeyOf env.freshId filename)
      (generatePublicUrl env.publicUrlBase (s3KeyOf env.freshId filename)) now
  · unfold uploadVideoHandler
    rw [if_neg hb0, if_neg hs3', if_neg hdb', if_pos hset]
  · unfold listVideosHandler
    rw [if_pos hget]

/-- Witness for C2 amended at a concrete request and world. -/
theorem cache_failure_returns_500_witness :
    (uploadVideoHandler bothFailEnv [7] "c.webm" "video/webm" 4 exWorldMiss).1
      = UploadResult.serverError "cache set failed"
    ∧ dbFind (uploadVideoHandler bothFailEnv [7] "c.webm" "video/webm" 4
        exWorldMiss).2.db "v1" ≠ none
    ∧ (uploadVideoHandler bothFailEnv [7] "c.webm" "video/webm" 4
        exWorldMiss).2.s3Keys = s3KeyOf "v1" "c.webm" :: exWorldMiss.s3Keys
    ∧ listVideosHandler bothFailEnv 10 exWorldMiss
      = (ListResult.serverError "cache get failed", exWorldMiss) :=
  cache_failure_returns_500 bothFailEnv [7] "c.webm" "video/webm" 4 exWorldMiss
    10 (by decide) rfl rfl rfl rfl

/-- C8: every execution of the `ProcessVideoUpload` handler returns normally:
whatever the failure flags of its steps and the initial world, the top-level
catch absorbs any thrown step and no error reaches the caller. -/
theorem reconciler_never_raises (env : Env) (inp : UploadEventInput) (now : Nat)
    (w : World) :
    ∃ w', processVideoUploadHandler env inp now w = HandlerResult.returned w' := by
  unfold processVideoUploadHandler
  cases hb : processVideoUploadBody env inp now w with
  | ok w1 => exact ⟨w1, rfl⟩
  | error e => obtain ⟨s, w1⟩ := e; exact ⟨w1, rfl⟩

/-- C9: a direct-upload request whose extracted payload is empty is rejected
with the 400 "Video file is empty" response and the world is untouched: no
blob-store upload, no Metadata Store write, no cache mutation, no completion
signal. -/
theorem upload_empty_payload_rejected (env : Env) (buffer : List Nat)
    (filename contentType : String) (now : Nat) (w : World)
    (h : buffer.length = 0) :
    uploadVideoHandler env buffer filename contentType now w
      = (UploadResult.badRequest "Video file is empty", w) := by
  have hb : (buffer.length == 0) = true := by simp [h]
  unfold uploadVideoHandler
  rw [if_pos hb]

/-- Witness for C9: the empty buffer on the empty world. -/
theorem upload_empty_payload_rejected_witness :
    uploadVideoHandler happyEnv [] "a.webm" "video/webm" 5 emptyWorld
      = (UploadResult.badRequest "Video file is empty", emptyWorld) :=
  upload_empty_payload_rejected happyEnv [] "a.webm" "video/webm" 5 emptyWorld rfl

/-- C5: starting from any world whose `s3-verifications` cache group holds no
`false` value, after any sequence of reconciler executions (any environments,
inputs and ticks) it still holds no `false` value - only `true` is ever
stored under an existence-check key, a negative probe storing nothing. -/
theorem verification_cache_never_false
    (steps : List (Env × UploadEventInput × Nat)) (w : World)
    (h : noFalseVerification w.cache = true) :
    noFalseVerification (runReconciler steps w).cache = true := by
  induction steps generalizing w with
  | nil => exact h
  | cons s rest ih =>
    obtain ⟨env, inp, now⟩ := s
    exact ih _ (noFalse_reconciler_step env inp now w h)

/-- Witness for C5: one successful reconciliation on a cold cache stores
`true` under the existence-check key and keeps the invariant. -/
theorem verification_cache_never_false_witness :
    noFalseVerification exWorldMiss.cache = true
    ∧ noFalseVerification
        (runReconciler [(happyEnv, exInput, 7)] exWorldMiss).cache = true
    ∧ cacheGet (runReconciler [(happyEnv, exInput, 7)] exWorldMiss).cache
        "s3-verifications" "s3-verify:videos/id1.webm"
      = some (CacheValue.boolVal true) :=
  ⟨rfl, verification_cache_never_false [(happyEnv, exInput, 7)] exWorldMiss rfl, rfl⟩

/-- C10: the durable deletion is the commit point of `delete(id)`: when the
store has no row for the id the handler answers not-found and mutates
nothing; when the deletion succeeds it evicts `videos[id]` and then clears
the whole `video-lists` group, in that order. -/
theorem delete_store_first_then_cache (env : Env) (videoId : String) (w : World)
    (h1 : env.dbFails = false) (h2 : env.cacheDeleteFails = false)
    (h3 : env.cacheClearFails = false) (h4 : env.emitFails = false) :
    (dbFind w.db videoId = none →
      deleteVideoHandler env videoId w = (DeleteResult.notFound, w))
    ∧ (∀ r0, dbFind w.db videoId = some r0 →
      (deleteVideoHandler env videoId w).1 = DeleteResult.ok videoId
      ∧ (deleteVideoHandler env videoId w).2.db
          = w.db.filter (fun r => !(r.id == videoId))
      ∧ (deleteVideoHandler env videoId w).2.cache
          = cacheClear (cacheDelete w.cache "videos" videoId) "video-lists"
      ∧ (deleteVideoHandler env videoId w).2.trace
          = w.trace ++ [CacheOp.delOp "videos" videoId,
                        CacheOp.clearOp "video-lists"]) := by
  have hdb : ¬ env.dbFails = true := by simp [h1]
  have hdel : ¬ env.cacheDeleteFails = true := by simp [h2]
  have hcl : ¬ env.cacheClearFails = true := by simp [h3]
  have hem : ¬ env.emitFails = true := by simp [h4]
  constructor
  · intro hn
    unfold deleteVideoHandler getVideoMetadata
    rw [if_neg hdb, hn]
  · intro r0 hf
    have hany : w.db.any (fun x => x.id == videoId) = true := any_of_find hf
    have hkey : ∀ p : DeleteResult × World,
        (deleteVideoHandler env videoId w) = p →
        (deleteVideoHandler env videoId w).1 = p.1
        ∧ (deleteVideoHandler env videoId w).2 = p.2 := by
      intro p hp; exact ⟨by rw [hp], by rw [hp]⟩
    have hrun : deleteVideoHandler env videoId w
        = (DeleteResult.ok videoId,
           { db := w.db.filter (fun r => !(r.id == videoId)),
             cache := cacheClear (cacheDelete w.cache "videos" videoId) "video-lists",
             s3Keys := w.s3Keys,
             events := w.events ++ [Event.videoDeleted videoId r0.s3Key r0.filename],
             trace := (w.trace ++ [CacheOp.delOp "videos" videoId])
               ++ [CacheOp.clearOp "video-lists"] }) := by
      unfold deleteVideoHandler getVideoMetadata
      rw [if_neg hdb, hf]
      show (let del := deleteVideoDb w.db videoId
        if !del.2 then (DeleteResult.notFound, { w with db := del.1 })
        else
          let w1 : World := { w with db := del.1 }
          if env.cacheDeleteFails = true then
            (DeleteResult.serverError "cache delete failed", w1)
          else
            let w2 := stateDelete w1 "videos" videoId
            if env.cacheClearFails = true then
              (DeleteResult.serverError "cache clear failed", w2)
            else
              let w3 := stateClear w2 "video-lists"
              if env.emitFails = true then
                (DeleteResult.serverError "emit failed", w3)
              else
                (DeleteResult.ok videoId,
                 { w3 with events := w3.events ++
                   [Event.videoDeleted videoId (rowToMetadata r0).s3Key
                     (rowToMetadata r0).filename] })) = _
      show (if !(deleteVideoDb w.db videoId).2 then _ else _) = _
      rw [show (deleteVideoDb w.db videoId).2 = true from hany, Bool.not_true,
        if_neg (by simp), if_neg hdel, if_neg hcl, if_neg hem]
      rfl
    obtain ⟨e1, e2⟩ := hkey _ hrun
    refine ⟨e1, ?_, ?_, ?_⟩
    · rw [e2]
    · rw [e2]
    · rw [e2]
      simp only [List.append_assoc]
      rfl

/-- Witness for C10: deleting `id1` from a warm world takes the found branch
with the evict-then-clear trace. -/
theorem delete_store_first_then_cache_witness :
    (deleteVideoHandler happyEnv "id1" exWorldHit).1 = DeleteResult.ok "id1"
    ∧ (deleteVideoHandler happyEnv "id1" exWorldHit).2.db
        = exWorldHit.db.filter (fun r => !(r.id == "id1"))
    ∧ (deleteVideoHandler happyEnv "id1" exWorldHit).2.cache
        = cacheClear (cacheDelete exWorldHit.cache "videos" "id1") "video-lists"
    ∧ (deleteVideoHandler happyEnv "id1" exWorldHit).2.trace
        = exWorldHit.trace ++ [CacheOp.delOp "videos" "id1",
                               CacheOp.clearOp "video-lists"] :=
  (delete_store_first_then_cache happyEnv "id1" exWorldHit rfl rfl rfl rfl).2
    exRowDb rfl

end Chitro
